import Mathlib

/-!
Shallow embedding of the Bookmark-RESTful data-access layer
(`repository/repository.go`, `handler` middleware) over an in-memory
relational state. Tables are insertion-ordered lists of rows; SQL
statements become list operations; fallible external effects (the
entropy source, statement execution, transaction begin/commit) are
modelled by explicit fault parameters. Every operation returns the
result together with the post-state, so partial-failure behaviour is
observable.
-/

namespace BookmarkRepo

/-- A row of the `users` table: id, name, email, nullable api_key. -/
structure UserRow where
  id : Nat
  name : String
  email : String
  apiKey : Option String
deriving Repr, DecidableEq

/-- A row of the `bookmarks` table: id, user_id, title, url, created_at
(the timestamp is store-assigned at insert time, modelled as a Nat tick). -/
structure BookmarkRow where
  id : Nat
  userID : Nat
  title : String
  url : String
  createdAt : Nat
deriving Repr, DecidableEq

/-- The persistent store: both tables in insertion order, the
auto-increment counters, and the clock the store uses for `created_at`. -/
structure DB where
  users : List UserRow
  bookmarks : List BookmarkRow
  nextUserId : Nat
  nextBookmarkId : Nat
  clock : Nat
deriving Repr, DecidableEq

/-- The error kinds of the layer: the two domain errors (`ErrEmailTaken`,
`ErrInvalidAPIKey`), entropy failure, store failures, transaction
failures, and the backfill errors which carry the user id that was in
progress (Go wraps "for user %d"). -/
inductive RepoError where
  | emailTaken
  | invalidAPIKey
  | genError
  | execError
  | scanError
  | txBeginError
  | txCommitError
  | backfillGenError (userID : Nat)
  | backfillUpdateError (userID : Nat)
deriving Repr, DecidableEq

/-- Lower-case hexadecimal digit for a value below 16, as Go's
`encoding/hex` produces. -/
def hexDigit (n : Nat) : Char :=
  if n < 10 then Char.ofNat (48 + n) else Char.ofNat (87 + n)

/-- `encoding/hex.EncodeToString` on one byte: two lowercase hex chars. -/
def hexEncodeByte (b : Nat) : List Char :=
  [hexDigit (b / 16), hexDigit (b % 16)]

/-- `encoding/hex.EncodeToString` over a byte slice. -/
def hexEncodeString (bs : List Nat) : String :=
  String.mk (bs.map hexEncodeByte).flatten

/-- `generateAPIKey`: read 32 bytes from the entropy source and hex-encode
them. The entropy source is a parameter: `none` models `crypto/rand.Read`
failing, in which case the error is propagated and nothing is returned. -/
def generateAPIKey (entropy : Option (List Nat)) : Except RepoError String :=
  match entropy with
  | none => .error .genError
  | some bs => .ok (hexEncodeString bs)

/-- The set of characters `encoding/hex` emits. -/
def isLowerHexChar (c : Char) : Bool :=
  (Char.ofNat 48 ≤ c && c ≤ Char.ofNat 57) || (Char.ofNat 97 ≤ c && c ≤ Char.ofNat 102)

/-- `SELECT EXISTS(SELECT 1 FROM users WHERE email = ?)`. -/
def emailExists (db : DB) (email : String) : Bool :=
  db.users.any (fun u => u.email == email)

/-- `CreateUser`: check email uniqueness (returning `ErrEmailTaken` if the
email is present), generate an API key, insert the user with that key, and
return the row carrying the store-assigned id. On any error the pair's
second component is the untouched store. -/
def CreateUser (db : DB) (name email : String) (entropy : Option (List Nat)) :
    Except RepoError UserRow × DB :=
  if emailExists db email then (.error .emailTaken, db)
  else
    match generateAPIKey entropy with
    | .error e => (.error e, db)
    | .ok apiKey =>
      let u : UserRow := { id := db.nextUserId, name := name, email := email,
                           apiKey := some apiKey }
      (.ok u, { db with users := db.users ++ [u], nextUserId := db.nextUserId + 1 })

/-- `GetUserByAPIKey`: `SELECT ... FROM users WHERE api_key = ?` via
`QueryRow` — the first matching row, or `ErrInvalidAPIKey` on
`sql.ErrNoRows`. A NULL `api_key` never matches. -/
def GetUserByAPIKey (db : DB) (apiKey : String) : Except RepoError UserRow :=
  match db.users.find? (fun u => u.apiKey == some apiKey) with
  | some u => .ok u
  | none => .error .invalidAPIKey

/-- `UPDATE users SET api_key = ? WHERE id = ?`: overwrite the key of
every row whose id matches (zero rows when the id is absent). -/
def setUserKey (db : DB) (userID : Nat) (key : String) : DB :=
  { db with users := (db.users.map
     (fun u => if u.id == userID then { u with apiKey := some key } else u)) }

/-- `RegenerateAPIKey`: generate a new key and issue
`UPDATE users SET api_key = ? WHERE id = ?`. The update is unconditional
and the new key is returned regardless of how many rows matched. -/
def RegenerateAPIKey (db : DB) (userID : Nat) (entropy : Option (List Nat)) :
    Except RepoError String × DB :=
  match generateAPIKey entropy with
  | .error _ => (.error .genError, db)
  | .ok newKey => (.ok newKey, setUserKey db userID newKey)

/-- Faults the store can raise during `CreateBookmark`: the INSERT itself
failing, or the read-back `SELECT created_at` failing. -/
structure BookmarkFault where
  insertFails : Bool
  scanFails : Bool
deriving Repr, DecidableEq

/-- The row the INSERT of `CreateBookmark` adds: store-assigned id and
store-assigned `created_at`. -/
def newBookmarkRow (db : DB) (userID : Nat) (title url : String) : BookmarkRow :=
  { id := db.nextBookmarkId, userID := userID, title := title, url := url,
    createdAt := db.clock }

/-- The store right after `CreateBookmark`'s INSERT. -/
def insertedBookmarkState (db : DB) (userID : Nat) (title url : String) : DB :=
  { db with bookmarks := db.bookmarks ++ [newBookmarkRow db userID title url],
            nextBookmarkId := db.nextBookmarkId + 1,
            clock := db.clock + 1 }

/-- `CreateBookmark`: INSERT the row (the store assigns id and
`created_at`), then read `created_at` back by id and fill it into the
returned object; if the read-back fails the operation returns the error
instead of a partially populated bookmark, though the inserted row stays
(the INSERT is not transactional with the SELECT). -/
def CreateBookmark (db : DB) (userID : Nat) (title url : String)
    (fault : BookmarkFault) : Except RepoError BookmarkRow × DB :=
  if fault.insertFails then (.error .execError, db)
  else
    let row : BookmarkRow := newBookmarkRow db userID title url
    let db' : DB := insertedBookmarkState db userID title url
    if fault.scanFails then (.error .scanError, db')
    else
      match db'.bookmarks.find? (fun b => b.id == row.id) with
      | none => (.error .scanError, db')
      | some stored =>
        (.ok { id := row.id, userID := userID, title := title, url := url,
               createdAt := stored.createdAt }, db')

/-- `FetchBookmarks`: `SELECT ... FROM bookmarks WHERE user_id = ?` — a
scan of the table in insertion order keeping the rows of that user. There
is no path that reports "no bookmarks" as an error: an empty result set
yields the empty list under `.ok`. -/
def FetchBookmarks (db : DB) (userID : Nat) : Except RepoError (List BookmarkRow) :=
  .ok (db.bookmarks.filter (fun b => b.userID == userID))

/-- `deleteBookmarkByTitle`: `DELETE FROM bookmarks WHERE user_id = ? AND
title = ?`, returning `RowsAffected`. -/
def deleteBookmarkByTitle (db : DB) (userID : Nat) (title : String) : Nat × DB :=
  ((db.bookmarks.filter (fun b => b.userID == userID && b.title == title)).length,
   { db with bookmarks :=
      db.bookmarks.filter (fun b => !(b.userID == userID && b.title == title)) })

/-- Faults the store can raise inside `deleteUserAndBookmarks`: `Begin`,
either `Exec`, or `Commit` failing. -/
structure TxFault where
  beginFails : Bool
  deleteBookmarksFails : Bool
  deleteUserFails : Bool
  commitFails : Bool
deriving Repr, DecidableEq

/-- `deleteUserAndBookmarks`: inside one transaction, delete the user's
bookmarks, then the user row, then commit; the deferred `Rollback` means
any failure leaves the store exactly as it was, and only a successful
commit publishes the new state. -/
def deleteUserAndBookmarks (db : DB) (userID : Nat) (f : TxFault) :
    Except RepoError Unit × DB :=
  if f.beginFails then (.error .txBeginError, db)
  else
    let tx1 : DB := { db with bookmarks := db.bookmarks.filter (fun b => !(b.userID == userID)) }
    if f.deleteBookmarksFails then (.error .execError, db)
    else
      let tx2 : DB := { tx1 with users := tx1.users.filter (fun u => !(u.id == userID)) }
      if f.deleteUserFails then (.error .execError, db)
      else if f.commitFails then (.error .txCommitError, db)
      else (.ok (), tx2)

/-- `SELECT id FROM users WHERE api_key IS NULL`, in table order. -/
def keylessIds (db : DB) : List Nat :=
  (db.users.filter (fun u => u.apiKey == none)).map (fun u => u.id)

/-- The per-user loop of `UpdateExistingUsersWithAPIKey`: for the `i`-th
collected id, draw a key from the entropy schedule `gens` (`none` models
`generateAPIKey` failing there) and run the UPDATE (`execFails i` models
that statement failing). Either failure stops the sweep at once with an
error naming the user in progress; the updates already executed are
individual autocommitted statements and stay. -/
def backfillLoop (gens : Nat → Option String) (execFails : Nat → Bool) :
    DB → List Nat → Nat → Except RepoError Unit × DB
  | db, [], _ => (.ok (), db)
  | db, id :: rest, i =>
    match gens i with
    | none => (.error (.backfillGenError id), db)
    | some k =>
      if execFails i then (.error (.backfillUpdateError id), db)
      else backfillLoop gens execFails (setUserKey db id k) rest (i + 1)

/-- `UpdateExistingUsersWithAPIKey`: collect the ids of users without an
API key, then assign each a fresh key in turn. -/
def UpdateExistingUsersWithAPIKey (db : DB) (gens : Nat → Option String)
    (execFails : Nat → Bool) : Except RepoError Unit × DB :=
  backfillLoop gens execFails db (keylessIds db) 0

/-- The updates a successful run of the sweep performs on its first `ids`
entries (used to state what persists when the sweep stops mid-way). -/
def applyUpdates (gens : Nat → Option String) : DB → List Nat → Nat → DB
  | db, [], _ => db
  | db, id :: rest, i =>
    match gens i with
    | none => db
    | some k => applyUpdates gens (setUserKey db id k) rest (i + 1)

/-! The handler layer (`handler` package): the API-key middleware and how
the protected handlers read the authenticated user back out of the
request context. A Go `context.Value` key is an interface value, compared
by dynamic type AND value, so we model a key as the pair of its dynamic
type name and its underlying string. -/

/-- A Go interface value used as a context key: dynamic type + value.
Two keys are equal only when both components agree, exactly as Go's
interface equality behaves for `context.Value`. -/
structure GoIfaceKey where
  typeName : String
  val : String
deriving Repr, DecidableEq

/-- The middleware's key: `contextKey("user")` where
`type contextKey string` is declared inside `APIKeyMiddleware`. -/
def middlewareUserKey : GoIfaceKey := { typeName := "handler.contextKey", val := "user" }

/-- The key the protected handlers look up: the untyped string literal
`"user"` in `r.Context().Value("user")`. -/
def handlerLookupKey : GoIfaceKey := { typeName := "string", val := "user" }

/-- A request context: the chain of `WithValue` entries holding users. -/
structure ReqContext where
  entries : List (GoIfaceKey × UserRow)
deriving Repr, DecidableEq

/-- `context.WithValue`: a child context whose lookup tries the new pair
first. -/
def withValue (ctx : ReqContext) (k : GoIfaceKey) (v : UserRow) : ReqContext :=
  { entries := (k, v) :: ctx.entries }

/-- `ctx.Value(k)`: walk the chain and return the first value stored
under a key equal to `k`, or `nil` (`none`). -/
def ctxValue (ctx : ReqContext) (k : GoIfaceKey) : Option UserRow :=
  (ctx.entries.find? (fun p => p.1 == k)).map (fun p => p.2)

/-- Character-level worker for `strings.Split(s, " ")`: cut at every
space, keeping empty fields, accumulating the current field reversed. -/
def splitSpaceAux : List Char → List Char → List (List Char)
  | [], acc => [acc.reverse]
  | c :: rest, acc =>
    if c = ' ' then acc.reverse :: splitSpaceAux rest []
    else splitSpaceAux rest (c :: acc)

/-- Go's `strings.Split(s, " ")`. -/
def goSplitSpace (s : String) : List String :=
  (splitSpaceAux s.data []).map (fun cs => String.mk cs)

/-- `strings.Split(authHeader, " ")` then the shape check of
`APIKeyMiddleware`: exactly two parts and the first is `Bearer`. -/
def parseBearer (authHeader : String) : Option String :=
  match goSplitSpace authHeader with
  | [scheme, key] => if scheme == "Bearer" then some key else none
  | _ => none

/-- `APIKeyMiddleware`: reject an empty or malformed Authorization
header, resolve the key to a user, and on success run the next handler
with the user stored in the context under `middlewareUserKey`. `none`
means the request was rejected before reaching the handler. -/
def APIKeyMiddleware (db : DB) (authHeader : String) (ctx : ReqContext) :
    Option ReqContext :=
  if authHeader == "" then none
  else
    match parseBearer authHeader with
    | none => none
    | some apiKey =>
      match GetUserByAPIKey db apiKey with
      | .error _ => none
      | .ok user => some (withValue ctx middlewareUserKey user)

/-- What a protected handler observes: the user, or a runtime panic from
the unchecked type assertion `r.Context().Value("user").(*repository.User)`
when the lookup yields `nil`. -/
inductive HandlerOutcome where
  | gotUser (u : UserRow)
  | panicked
deriving Repr, DecidableEq

/-- The shared first line of `RegenerateAPIKey`, `CreateBookmark` and
`ListBookmarksForCurrentUser`: assert the value under the string key
`"user"` to a `*repository.User`; a `nil` value makes the assertion
panic. -/
def handlerGetUser (ctx : ReqContext) : HandlerOutcome :=
  match ctxValue ctx handlerLookupKey with
  | some u => .gotUser u
  | none => .panicked

/-! Sample stores and named intermediate states, used in the theorem
statements and their concrete instantiations. -/

/-- Sample empty store used to instantiate the theorems. -/
def emptyDB : DB :=
  { users := [], bookmarks := [], nextUserId := 1, nextBookmarkId := 1, clock := 0 }

/-- A store with one account holding API key "k". -/
def demoUser : UserRow := { id := 1, name := "Ada", email := "a@b.co", apiKey := some "k" }

/-- Demo store for the middleware theorems. -/
def demoDB : DB :=
  { users := [demoUser], bookmarks := [], nextUserId := 2, nextBookmarkId := 1, clock := 0 }

/-- The row `CreateUser` inserts on success. -/
def newUserRow (db : DB) (name email : String) (bs : List Nat) : UserRow :=
  { id := db.nextUserId, name := name, email := email, apiKey := some (hexEncodeString bs) }

/-- The store after a successful `CreateUser`. -/
def createUserSucc (db : DB) (name email : String) (bs : List Nat) : DB :=
  { db with users := db.users ++ [newUserRow db name email bs],
            nextUserId := db.nextUserId + 1 }

/-- The store after a committed `deleteUserAndBookmarks`: the account's
bookmarks and then the account row deleted. -/
def deletedState (db : DB) (userID : Nat) : DB :=
  { db with bookmarks := db.bookmarks.filter (fun b => !(b.userID == userID)),
            users := db.users.filter (fun u => !(u.id == userID)) }

/-- Demo store for C1: account 1 owns two bookmarks, account 2 owns one. -/
def deletionDemoDB : DB :=
  { users := [{ id := 1, name := "A", email := "a@x.co", apiKey := some "a" },
              { id := 2, name := "B", email := "b@x.co", apiKey := some "b" }],
    bookmarks := [{ id := 1, userID := 1, title := "t1", url := "u1", createdAt := 0 },
                  { id := 2, userID := 2, title := "t2", url := "u2", createdAt := 1 },
                  { id := 3, userID := 1, title := "t3", url := "u3", createdAt := 2 }],
    nextUserId := 3, nextBookmarkId := 4, clock := 3 }

/-- Demo store for C7: accounts 1 and 3 lack keys, account 2 has one. -/
def backfillDemoDB : DB :=
  { users := [{ id := 1, name := "A", email := "a@x.co", apiKey := none },
              { id := 2, name := "B", email := "b@x.co", apiKey := some "x" },
              { id := 3, name := "C", email := "c@x.co", apiKey := none }],
    bookmarks := [], nextUserId := 4, nextBookmarkId := 1, clock := 0 }

/-! Helper lemmas. -/

lemma hexDigit_isLowerHex {n : Nat} (h : n < 16) : isLowerHexChar (hexDigit n) = true := by
  interval_cases n <;> decide

lemma hexEncodeByte_length (b : Nat) : (hexEncodeByte b).length = 2 := rfl

lemma hexEncodeByte_isLowerHex {b : Nat} (hb : b < 256) :
    ∀ c ∈ hexEncodeByte b, isLowerHexChar c = true := by
  intro c hc
  simp only [hexEncodeByte, List.mem_cons, List.mem_singleton, List.not_mem_nil, or_false] at hc
  rcases hc with rfl | rfl
  · exact hexDigit_isLowerHex (Nat.lt_of_lt_of_le (Nat.div_lt_iff_lt_mul (by norm_num) |>.mpr hb) (le_refl 16))
  · exact hexDigit_isLowerHex (Nat.mod_lt b (by norm_num))

lemma hexEncodeString_length {bs : List Nat} : (hexEncodeString bs).length = 2 * bs.length := by
  induction bs with
  | nil => rfl
  | cons b rest ih =>
    simp only [hexEncodeString, String.length] at ih ⊢
    simp only [List.map_cons, List.flatten_cons, List.length_append, hexEncodeByte_length, ih,
      List.length_cons]
    ring

lemma hexEncodeString_chars {bs : List Nat} (hb : ∀ b ∈ bs, b < 256) :
    ∀ c ∈ (hexEncodeString bs).data, isLowerHexChar c = true := by
  intro c hc
  simp only [hexEncodeString] at hc
  rcases List.mem_flatten.mp hc with ⟨l, hl, hcl⟩
  rcases List.mem_map.mp hl with ⟨b, hbmem, rfl⟩
  exact hexEncodeByte_isLowerHex (hb b hbmem) c hcl

lemma length_filter_not_add {α : Type} (p : α → Bool) (l : List α) :
    (l.filter p).length + (l.filter (fun a => !(p a))).length = l.length := by
  induction l with
  | nil => rfl
  | cons a rest ih =>
    cases h : p a with
    | true =>
      simp [List.filter_cons, h]
      omega
    | false =>
      simp [List.filter_cons, h]
      omega

lemma find?_append_of_none {α : Type} {p : α → Bool} {l₁ : List α} (l₂ : List α)
    (h : l₁.find? p = none) : (l₁ ++ l₂).find? p = l₂.find? p := by
  induction l₁ with
  | nil => rfl
  | cons a rest ih =>
    cases hpa : p a with
    | true =>
      rw [List.find?_cons_of_pos _ hpa] at h
      exact absurd h (by simp)
    | false =>
      rw [List.find?_cons_of_neg _ (by simp [hpa])] at h
      rw [List.cons_append, List.find?_cons_of_neg _ (by simp [hpa])]
      exact ih h

/-- C9: on success `generateAPIKey` returns the lowercase hexadecimal
rendering of the 32 random bytes — a string of exactly 64 lowercase hex
characters — and when the entropy source fails, the error is propagated
and no key (partial or otherwise) is produced. -/
theorem generateAPIKey_spec (entropy : Option (List Nat)) :
    (∀ bs, entropy = some bs → bs.length = 32 → (∀ b ∈ bs, b < 256) →
      ∃ s, generateAPIKey entropy = .ok s ∧ s.length = 64 ∧
        ∀ c ∈ s.data, isLowerHexChar c = true)
    ∧ (entropy = none → generateAPIKey entropy = .error .genError) := by
  constructor
  · rintro bs rfl hlen hb
    refine ⟨hexEncodeString bs, rfl, ?_, hexEncodeString_chars hb⟩
    rw [hexEncodeString_length, hlen]
  · rintro rfl
    rfl

/-- Witness for C9 at a concrete 32-byte input. -/
theorem generateAPIKey_spec_witness :
    ∃ s, generateAPIKey (some (List.replicate 32 0)) = .ok s ∧ s.length = 64 ∧
      ∀ c ∈ s.data, isLowerHexChar c = true :=
  (generateAPIKey_spec (some (List.replicate 32 0))).1 (List.replicate 32 0) rfl
    (by decide) (by decide)

/-- C3: `FetchBookmarks` succeeds with exactly the account's bookmarks,
in table (insertion) order — the result is a sublist of the table, its
members are precisely the rows owned by the account — and for an account
owning no bookmark it returns the empty sequence under `.ok`, never an
error. -/
theorem FetchBookmarks_spec (db : DB) (userID : Nat) :
    FetchBookmarks db userID = .ok (db.bookmarks.filter (fun b => b.userID == userID))
    ∧ (db.bookmarks.filter (fun b => b.userID == userID)).Sublist db.bookmarks
    ∧ (∀ b, b ∈ db.bookmarks.filter (fun b => b.userID == userID) ↔
        b ∈ db.bookmarks ∧ b.userID = userID)
    ∧ ((∀ b ∈ db.bookmarks, b.userID ≠ userID) → FetchBookmarks db userID = .ok []) := by
  refine ⟨rfl, List.filter_sublist _, ?_, ?_⟩
  · intro b
    simp [List.mem_filter]
  · intro h
    simp only [FetchBookmarks, Except.ok.injEq]
    rw [List.filter_eq_nil_iff]
    intro b hb
    simpa using h b hb

/-- Witness for C3: an account with zero bookmarks gets `.ok []`. -/
theorem FetchBookmarks_spec_witness : FetchBookmarks emptyDB 7 = .ok [] :=
  (FetchBookmarks_spec emptyDB 7).2.2.2 (by simp [emptyDB])

/-- C8: `deleteBookmarkByTitle` returns the number of rows whose owner
and title both match exactly, the surviving table keeps precisely the
rows that do not match (derived character-for-character string equality),
the `users` table and counters are untouched, removed + surviving counts
the whole table, and when nothing matches the call returns count 0 with
the store unchanged — a non-error outcome. -/
theorem deleteBookmarkByTitle_spec (db : DB) (userID : Nat) (title : String) :
    (deleteBookmarkByTitle db userID title).1
      = (db.bookmarks.filter (fun b => b.userID == userID && b.title == title)).length
    ∧ (∀ b, b ∈ (deleteBookmarkByTitle db userID title).2.bookmarks ↔
        b ∈ db.bookmarks ∧ ¬(b.userID = userID ∧ b.title = title))
    ∧ (deleteBookmarkByTitle db userID title).2.users = db.users
    ∧ (deleteBookmarkByTitle db userID title).2.nextUserId = db.nextUserId
    ∧ (deleteBookmarkByTitle db userID title).2.nextBookmarkId = db.nextBookmarkId
    ∧ (deleteBookmarkByTitle db userID title).1
        + (deleteBookmarkByTitle db userID title).2.bookmarks.length
        = db.bookmarks.length
    ∧ ((∀ b ∈ db.bookmarks, ¬(b.userID = userID ∧ b.title = title)) →
        deleteBookmarkByTitle db userID title = (0, db)) := by
  refine ⟨rfl, ?_, rfl, rfl, rfl, ?_, ?_⟩
  · intro b
    simp only [deleteBookmarkByTitle, List.mem_filter]
    constructor
    · rintro ⟨hmem, hp⟩
      refine ⟨hmem, ?_⟩
      rintro ⟨h1, h2⟩
      simp [h1, h2] at hp
    · rintro ⟨hmem, hp⟩
      refine ⟨hmem, ?_⟩
      cases h1 : (b.userID == userID) with
      | false => simp [h1]
      | true =>
        cases h2 : (b.title == title) with
        | false => simp [h1, h2]
        | true => exact absurd ⟨beq_iff_eq.mp h1, beq_iff_eq.mp h2⟩ hp
  · exact length_filter_not_add _ _
  · intro h
    have hfil : db.bookmarks.filter (fun b => b.userID == userID && b.title == title) = [] := by
      rw [List.filter_eq_nil_iff]
      intro b hb
      have := h b hb
      simp only [Bool.and_eq_true, beq_iff_eq, not_and]
      intro h1 h2
      exact this ⟨h1, h2⟩
    have hkeep : db.bookmarks.filter (fun b => !(b.userID == userID && b.title == title))
        = db.bookmarks := by
      rw [List.filter_eq_self]
      intro b hb
      have hnb := h b hb
      cases h1 : (b.userID == userID) with
      | false => simp [h1]
      | true =>
        cases h2 : (b.title == title) with
        | false => simp [h1, h2]
        | true => exact absurd ⟨beq_iff_eq.mp h1, beq_iff_eq.mp h2⟩ hnb
    simp only [deleteBookmarkByTitle, hfil, hkeep, List.length_nil]

/-- Witness for C8: deleting a title nobody owns returns count 0 with
the store unchanged, a non-error outcome. -/
theorem deleteBookmarkByTitle_spec_witness :
    deleteBookmarkByTitle deletionDemoDB 1 "nope" = (0, deletionDemoDB) :=
  (deleteBookmarkByTitle_spec deletionDemoDB 1 "nope").2.2.2.2.2.2
    (by intro b hb; fin_cases hb <;> simp)

/-- C10: rotating the key of an identifier that matches no stored
account still succeeds with the freshly generated key: the UPDATE touches
zero rows, the store is unchanged, and no `NotFound`-style error is
reported — success does not imply the account exists. -/
theorem RegenerateAPIKey_missing_user (db : DB) (userID : Nat) (bs : List Nat)
    (habs : ∀ u ∈ db.users, u.id ≠ userID) :
    RegenerateAPIKey db userID (some bs) = (.ok (hexEncodeString bs), db) := by
  simp only [RegenerateAPIKey, generateAPIKey, setUserKey]
  have hmap : (db.users.map
      (fun u => if u.id == userID then { u with apiKey := some (hexEncodeString bs) } else u))
      = db.users := by
    have hcongr : ∀ u ∈ db.users,
        (if u.id == userID then { u with apiKey := some (hexEncodeString bs) } else u) = id u := by
      intro u hu
      simp [habs u hu]
    rw [List.map_congr_left hcongr, List.map_id]
  rw [hmap]

/-- Witness for C10 on a store holding only an account with id 1,
rotated at the absent id 2. -/
theorem RegenerateAPIKey_missing_user_witness :
    RegenerateAPIKey
        { users := [{ id := 1, name := "Ada", email := "a@b.co", apiKey := some "k" }],
          bookmarks := [], nextUserId := 2, nextBookmarkId := 1, clock := 0 }
        2 (some [0])
      = (.ok (hexEncodeString [0]),
         { users := [{ id := 1, name := "Ada", email := "a@b.co", apiKey := some "k" }],
           bookmarks := [], nextUserId := 2, nextBookmarkId := 1, clock := 0 }) :=
  RegenerateAPIKey_missing_user _ 2 [0] (by simp)

/-- C2: the claim that a request accepted by `APIKeyMiddleware` lets the
protected handlers retrieve the stored `*repository.User` via
`r.Context().Value("user")` fails on the code: the middleware stores the
user under the typed key `contextKey("user")`, the handlers look up the
plain string `"user"`, Go interface keys with different dynamic types are
never equal, so the lookup yields `nil` and the unchecked type assertion
panics on every accepted request. -/
theorem handler_context_lookup_panics (db : DB) (authHeader : String) (ctx' : ReqContext)
    (hacc : APIKeyMiddleware db authHeader { entries := [] } = some ctx') :
    handlerGetUser ctx' = .panicked := by
  simp only [APIKeyMiddleware] at hacc
  split at hacc
  · cases hacc
  · split at hacc
    · cases hacc
    · split at hacc
      · cases hacc
      · injection hacc with h
        subst h
        rfl

/-- Witness for C2: a concrete accepted request whose handler lookup
panics. -/
theorem handler_context_lookup_panics_witness :
    handlerGetUser (withValue { entries := [] } middlewareUserKey demoUser) = .panicked :=
  handler_context_lookup_panics demoDB "Bearer k"
    (withValue { entries := [] } middlewareUserKey demoUser) (by decide)

/-- C4: when no account holds the email, `CreateUser` succeeds, returning
the account with the store-assigned id, the given name and email and the
freshly generated key, and appends exactly that row; a second creation
with the same email then fails with `EmailTaken` (for any name and any
entropy) leaving the store unchanged, and exactly one account with that
email persists. -/
theorem CreateUser_spec (db : DB) (name email : String) (bs : List Nat)
    (hfree : emailExists db email = false) :
    CreateUser db name email (some bs)
      = (.ok (newUserRow db name email bs), createUserSucc db name email bs)
    ∧ (∀ name2 ent2, CreateUser (createUserSucc db name email bs) name2 email ent2
        = (.error .emailTaken, createUserSucc db name email bs))
    ∧ ((createUserSucc db name email bs).users.filter
        (fun v => v.email == email)).length = 1 := by
  refine ⟨?_, ?_, ?_⟩
  · simp [CreateUser, hfree, generateAPIKey, newUserRow, createUserSucc]
  · intro name2 ent2
    have hex : emailExists (createUserSucc db name email bs) email = true := by
      simp [emailExists, createUserSucc, newUserRow]
    simp [CreateUser, hex]
  · have h0 : db.users.filter (fun v => v.email == email) = [] := by
      rw [List.filter_eq_nil_iff]
      intro u hu hc
      have hx : emailExists db email = true := by
        simp only [emailExists, List.any_eq_true]
        exact ⟨u, hu, hc⟩
      rw [hfree] at hx
      cases hx
    simp [createUserSucc, List.filter_append, h0, newUserRow]

/-- Witness for C4: creating "Ada" twice with the same email on the empty
store — first call succeeds, second fails with `EmailTaken`, one matching
account persists. -/
theorem CreateUser_spec_witness :
    CreateUser emptyDB "Ada" "ada@example.com" (some [0])
      = (.ok (newUserRow emptyDB "Ada" "ada@example.com" [0]),
         createUserSucc emptyDB "Ada" "ada@example.com" [0])
    ∧ CreateUser (createUserSucc emptyDB "Ada" "ada@example.com" [0]) "Bob" "ada@example.com"
        (some [1])
      = (.error .emailTaken, createUserSucc emptyDB "Ada" "ada@example.com" [0])
    ∧ ((createUserSucc emptyDB "Ada" "ada@example.com" [0]).users.filter
        (fun v => v.email == "ada@example.com")).length = 1 :=
  ⟨(CreateUser_spec emptyDB "Ada" "ada@example.com" [0] (by decide)).1,
   (CreateUser_spec emptyDB "Ada" "ada@example.com" [0] (by decide)).2.1 "Bob" (some [1]),
   (CreateUser_spec emptyDB "Ada" "ada@example.com" [0] (by decide)).2.2⟩

/-- C5: rotating the key of an existing account overwrites its stored
key unconditionally, and afterwards resolving the old key fails with
`InvalidAPIKey` (given that no other account holds the old key and the
fresh key differs from it) while resolving the new key succeeds and
returns that account. -/
theorem rotate_then_resolve (db : DB) (userID : Nat) (kold : String) (bs : List Nat)
    (hmem : ∃ u ∈ db.users, u.id = userID ∧ u.apiKey = some kold)
    (hold : ∀ u ∈ db.users, u.apiKey = some kold → u.id = userID)
    (hfresh : ∀ u ∈ db.users, u.apiKey ≠ some (hexEncodeString bs))
    (hne : hexEncodeString bs ≠ kold) :
    RegenerateAPIKey db userID (some bs)
      = (.ok (hexEncodeString bs), setUserKey db userID (hexEncodeString bs))
    ∧ (∀ u ∈ (setUserKey db userID (hexEncodeString bs)).users,
        u.id = userID → u.apiKey = some (hexEncodeString bs))
    ∧ GetUserByAPIKey (setUserKey db userID (hexEncodeString bs)) kold
        = .error .invalidAPIKey
    ∧ (∃ w, GetUserByAPIKey (setUserKey db userID (hexEncodeString bs)) (hexEncodeString bs)
          = .ok w ∧ w.id = userID ∧ w.apiKey = some (hexEncodeString bs)) := by
  refine ⟨rfl, ?_, ?_, ?_⟩
  · intro u hu hid
    rcases List.mem_map.mp hu with ⟨v, hv, rfl⟩
    by_cases hvid : (v.id == userID) = true
    · rw [if_pos hvid]
    · rw [if_neg hvid] at hid ⊢
      exact absurd (beq_iff_eq.mpr hid) hvid
  · have hnone : ((setUserKey db userID (hexEncodeString bs)).users.find?
        (fun u => u.apiKey == some kold)) = none := by
      rw [List.find?_eq_none]
      intro x hx
      rcases List.mem_map.mp hx with ⟨v, hv, rfl⟩
      by_cases hvid : (v.id == userID) = true
      · rw [if_pos hvid]
        simp only [beq_iff_eq, Option.some.injEq]
        exact fun hc => hne hc
      · rw [if_neg hvid]
        simp only [beq_iff_eq]
        intro hc
        exact hvid (beq_iff_eq.mpr (hold v hv hc))
    simp only [GetUserByAPIKey, hnone]
  · rcases hmem with ⟨u, hu, hid, hkey⟩
    have hmem' : ({ u with apiKey := some (hexEncodeString bs) } : UserRow)
        ∈ (setUserKey db userID (hexEncodeString bs)).users := by
      have heq : ((fun v => if v.id == userID then { v with apiKey := some (hexEncodeString bs) }
          else v) u) = { u with apiKey := some (hexEncodeString bs) } := by
        simp [hid]
      rw [← heq]
      exact List.mem_map_of_mem _ hu
    have hsome : ((setUserKey db userID (hexEncodeString bs)).users.find?
        (fun v => v.apiKey == some (hexEncodeString bs))).isSome = true := by
      rw [List.find?_isSome]
      exact ⟨_, hmem', by simp⟩
    rcases Option.isSome_iff_exists.mp hsome with ⟨w, hw⟩
    have hwkey : w.apiKey = some (hexEncodeString bs) := by
      have hp := List.find?_some hw
      simpa using hp
    have hwid : w.id = userID := by
      rcases List.mem_map.mp (List.mem_of_find?_eq_some hw) with ⟨v, hv, rfl⟩
      by_cases hvid : (v.id == userID) = true
      · rw [if_pos hvid]
        exact beq_iff_eq.mp hvid
      · rw [if_neg hvid] at hwkey ⊢
        exact absurd hwkey (hfresh v hv)
    exact ⟨w, by simp only [GetUserByAPIKey, hw], hwid, hwkey⟩

/-- Witness for C5: a two-account store, rotating account 1's key. -/
theorem rotate_then_resolve_witness :
    RegenerateAPIKey
        { users := [{ id := 1, name := "A", email := "a@x.co", apiKey := some "a" },
                    { id := 2, name := "B", email := "b@x.co", apiKey := some "b" }],
          bookmarks := [], nextUserId := 3, nextBookmarkId := 1, clock := 0 }
        1 (some [0])
      = (.ok (hexEncodeString [0]),
         setUserKey
           { users := [{ id := 1, name := "A", email := "a@x.co", apiKey := some "a" },
                       { id := 2, name := "B", email := "b@x.co", apiKey := some "b" }],
             bookmarks := [], nextUserId := 3, nextBookmarkId := 1, clock := 0 }
           1 (hexEncodeString [0]))
    ∧ GetUserByAPIKey
        (setUserKey
          { users := [{ id := 1, name := "A", email := "a@x.co", apiKey := some "a" },
                      { id := 2, name := "B", email := "b@x.co", apiKey := some "b" }],
            bookmarks := [], nextUserId := 3, nextBookmarkId := 1, clock := 0 }
          1 (hexEncodeString [0])) "a"
      = .error .invalidAPIKey
    ∧ (∃ w, GetUserByAPIKey
        (setUserKey
          { users := [{ id := 1, name := "A", email := "a@x.co", apiKey := some "a" },
                      { id := 2, name := "B", email := "b@x.co", apiKey := some "b" }],
            bookmarks := [], nextUserId := 3, nextBookmarkId := 1, clock := 0 }
          1 (hexEncodeString [0])) (hexEncodeString [0])
      = .ok w ∧ w.id = 1 ∧ w.apiKey = some (hexEncodeString [0])) := by
  have h := rotate_then_resolve
    { users := [{ id := 1, name := "A", email := "a@x.co", apiKey := some "a" },
                { id := 2, name := "B", email := "b@x.co", apiKey := some "b" }],
      bookmarks := [], nextUserId := 3, nextBookmarkId := 1, clock := 0 }
    1 "a" [0]
    ⟨{ id := 1, name := "A", email := "a@x.co", apiKey := some "a" }, by decide⟩
    (by decide) (by decide) (by decide)
  exact ⟨h.1, h.2.2.1, h.2.2.2⟩

/-- C6: `CreateBookmark` either fails (propagating the INSERT error with
the store untouched, or the read-back error — in which case no bookmark
object is returned at all, even though the inserted row stays) or returns
the fully populated bookmark: store-assigned id and the `created_at`
value read back from the stored row. -/
theorem CreateBookmark_spec (db : DB) (userID : Nat) (title url : String)
    (fault : BookmarkFault)
    (hfresh : ∀ b ∈ db.bookmarks, b.id ≠ db.nextBookmarkId) :
    (fault.insertFails = true →
      CreateBookmark db userID title url fault = (.error .execError, db))
    ∧ (fault.insertFails = false → fault.scanFails = true →
      CreateBookmark db userID title url fault
        = (.error .scanError, insertedBookmarkState db userID title url))
    ∧ (fault.insertFails = false → fault.scanFails = false →
      CreateBookmark db userID title url fault
        = (.ok (newBookmarkRow db userID title url),
           insertedBookmarkState db userID title url)) := by
  refine ⟨?_, ?_, ?_⟩
  · intro h1
    simp [CreateBookmark, h1]
  · intro h1 h2
    simp [CreateBookmark, h1, h2]
  · intro h1 h2
    have hnone : db.bookmarks.find? (fun b => b.id == db.nextBookmarkId) = none := by
      rw [List.find?_eq_none]
      intro x hx
      simp [hfresh x hx]
    have hfind : (insertedBookmarkState db userID title url).bookmarks.find?
        (fun b => b.id == (newBookmarkRow db userID title url).id)
        = some (newBookmarkRow db userID title url) := by
      simp only [insertedBookmarkState]
      rw [find?_append_of_none _ (by simpa [newBookmarkRow] using hnone)]
      exact List.find?_cons_of_pos _ (by simp)
    simp only [CreateBookmark, h1, h2, Bool.false_eq_true, if_false, hfind]
    rfl

/-- Witness for C6 on the empty store: scan failure aborts the call, and
the fault-free call returns the fully populated bookmark. -/
theorem CreateBookmark_spec_witness :
    CreateBookmark emptyDB 1 "OpenAI" "https://openai.com" { insertFails := false, scanFails := true }
      = (.error .scanError, insertedBookmarkState emptyDB 1 "OpenAI" "https://openai.com")
    ∧ CreateBookmark emptyDB 1 "OpenAI" "https://openai.com" { insertFails := false, scanFails := false }
      = (.ok (newBookmarkRow emptyDB 1 "OpenAI" "https://openai.com"),
         insertedBookmarkState emptyDB 1 "OpenAI" "https://openai.com") :=
  ⟨(CreateBookmark_spec emptyDB 1 "OpenAI" "https://openai.com"
      { insertFails := false, scanFails := true } (by simp [emptyDB])).2.1 rfl rfl,
   (CreateBookmark_spec emptyDB 1 "OpenAI" "https://openai.com"
      { insertFails := false, scanFails := false } (by simp [emptyDB])).2.2 rfl rfl⟩

/-- C1: `deleteUserAndBookmarks` is all-or-nothing. If beginning the
transaction, either delete, or the commit fails, it returns an error and
the stored state — the users row and every bookmarks row — is exactly the
state before the call. On success no bookmark row of that account
remains, the account row is gone, and every other bookmark and account is
retained. -/
theorem deleteUserAndBookmarks_spec (db : DB) (userID : Nat) (f : TxFault) :
    ((f.beginFails = true ∨ f.deleteBookmarksFails = true ∨ f.deleteUserFails = true
        ∨ f.commitFails = true) →
      ∃ e, deleteUserAndBookmarks db userID f = (.error e, db))
    ∧ (f.beginFails = false → f.deleteBookmarksFails = false → f.deleteUserFails = false →
        f.commitFails = false →
        deleteUserAndBookmarks db userID f = (.ok (), deletedState db userID))
    ∧ (∀ b ∈ (deletedState db userID).bookmarks, b.userID ≠ userID)
    ∧ (∀ u ∈ (deletedState db userID).users, u.id ≠ userID)
    ∧ (∀ b ∈ db.bookmarks, b.userID ≠ userID → b ∈ (deletedState db userID).bookmarks)
    ∧ (∀ u ∈ db.users, u.id ≠ userID → u ∈ (deletedState db userID).users) := by
  obtain ⟨b1, b2, b3, b4⟩ := f
  refine ⟨?_, ?_, ?_, ?_, ?_, ?_⟩
  · intro h
    cases b1 with
    | true => exact ⟨.txBeginError, rfl⟩
    | false =>
      cases b2 with
      | true => exact ⟨.execError, rfl⟩
      | false =>
        cases b3 with
        | true => exact ⟨.execError, rfl⟩
        | false =>
          cases b4 with
          | true => exact ⟨.txCommitError, rfl⟩
          | false => simp at h
  · intro h1 h2 h3 h4
    subst h1
    subst h2
    subst h3
    subst h4
    rfl
  · intro b hb
    simp only [deletedState, List.mem_filter, Bool.not_eq_true', beq_eq_false_iff_ne] at hb
    exact hb.2
  · intro u hu
    simp only [deletedState, List.mem_filter, Bool.not_eq_true', beq_eq_false_iff_ne] at hu
    exact hu.2
  · intro b hb hne
    simp only [deletedState, List.mem_filter, Bool.not_eq_true', beq_eq_false_iff_ne]
    exact ⟨hb, hne⟩
  · intro u hu hne
    simp only [deletedState, List.mem_filter, Bool.not_eq_true', beq_eq_false_iff_ne]
    exact ⟨hu, hne⟩

/-- Witness for C1: a failed commit leaves the store unchanged; the
fault-free run deletes account 1 and exactly its bookmarks. -/
theorem deleteUserAndBookmarks_spec_witness :
    (∃ e, deleteUserAndBookmarks deletionDemoDB 1
        { beginFails := false, deleteBookmarksFails := false, deleteUserFails := false,
          commitFails := true } = (.error e, deletionDemoDB))
    ∧ deleteUserAndBookmarks deletionDemoDB 1
        { beginFails := false, deleteBookmarksFails := false, deleteUserFails := false,
          commitFails := false } = (.ok (), deletedState deletionDemoDB 1) :=
  ⟨(deleteUserAndBookmarks_spec deletionDemoDB 1
      { beginFails := false, deleteBookmarksFails := false, deleteUserFails := false,
        commitFails := true }).1 (Or.inr (Or.inr (Or.inr rfl))),
   (deleteUserAndBookmarks_spec deletionDemoDB 1
      { beginFails := false, deleteBookmarksFails := false, deleteUserFails := false,
        commitFails := false }).2.1 rfl rfl rfl rfl⟩

lemma backfillLoop_all_ok (gens : Nat → Option String) (ef : Nat → Bool) :
    ∀ (ids : List Nat) (db : DB) (i : Nat),
      (∀ k, k < ids.length → (gens (i + k)).isSome = true ∧ ef (i + k) = false) →
      backfillLoop gens ef db ids i = (.ok (), applyUpdates gens db ids i) := by
  intro ids
  induction ids with
  | nil => intro db i _; rfl
  | cons id rest ih =>
    intro db i h
    have h0 := h 0 (by simp)
    rw [Nat.add_zero] at h0
    rcases hg : gens i with _ | k
    · rw [hg] at h0
      simp at h0
    · simp only [backfillLoop, applyUpdates, hg, h0.2, Bool.false_eq_true, if_false]
      refine ih (setUserKey db id k) (i + 1) ?_
      intro k' hk'
      have hh := h (k' + 1) (by simpa using Nat.succ_lt_succ hk')
      rwa [show i + (k' + 1) = i + 1 + k' by omega] at hh

lemma backfillLoop_stops (gens : Nat → Option String) (ef : Nat → Bool) :
    ∀ (ids : List Nat) (db : DB) (i j : Nat), j < ids.length →
      (∀ k, k < j → (gens (i + k)).isSome = true ∧ ef (i + k) = false) →
      (gens (i + j) = none ∨ ef (i + j) = true) →
      ∃ e, backfillLoop gens ef db ids i = (.error e, applyUpdates gens db (ids.take j) i)
        ∧ (e = .backfillGenError (ids.getD j 0) ∨ e = .backfillUpdateError (ids.getD j 0)) := by
  intro ids
  induction ids with
  | nil =>
    intro db i j hj
    simp at hj
  | cons id rest ih =>
    intro db i j hj hgood hfail
    cases j with
    | zero =>
      rw [Nat.add_zero] at hfail
      rcases hfail with hf | hf
      · exact ⟨.backfillGenError id, by simp [backfillLoop, applyUpdates, hf], Or.inl rfl⟩
      · cases hg : gens i with
        | none =>
          exact ⟨.backfillGenError id, by simp [backfillLoop, applyUpdates, hg], Or.inl rfl⟩
        | some k =>
          exact ⟨.backfillUpdateError id,
            by simp [backfillLoop, applyUpdates, hg, hf], Or.inr rfl⟩
    | succ j' =>
      have h0 := hgood 0 (Nat.succ_pos j')
      rw [Nat.add_zero] at h0
      rcases hg : gens i with _ | k
      · rw [hg] at h0
        simp at h0
      · have hrec := ih (setUserKey db id k) (i + 1) j' (by simpa using hj)
          (fun k' hk' => by
            have hh := hgood (k' + 1) (Nat.succ_lt_succ hk')
            rwa [show i + (k' + 1) = i + 1 + k' by omega] at hh)
          (by rwa [show i + 1 + j' = i + (j' + 1) by omega])
        rcases hrec with ⟨e, heq, hid⟩
        exact ⟨e,
          by simpa [backfillLoop, applyUpdates, hg, h0.2, List.take_succ_cons] using heq,
          by simpa [List.getD_cons_succ] using hid⟩

lemma applyUpdates_all_keyed (gens : Nat → Option String) :
    ∀ (ids : List Nat) (db : DB) (i : Nat),
      (∀ k, k < ids.length → (gens (i + k)).isSome = true) →
      (∀ u ∈ db.users, u.apiKey = none → u.id ∈ ids) →
      ∀ u ∈ (applyUpdates gens db ids i).users, u.apiKey.isSome = true := by
  intro ids
  induction ids with
  | nil =>
    intro db i _ hcov u hu
    cases hk : u.apiKey with
    | none => exact absurd (hcov u hu hk) (List.not_mem_nil _)
    | some k => rfl
  | cons id rest ih =>
    intro db i hg hcov
    have h0 := hg 0 (Nat.succ_pos _)
    rw [Nat.add_zero] at h0
    rcases hgi : gens i with _ | k
    · rw [hgi] at h0
      simp at h0
    · simp only [applyUpdates, hgi]
      refine ih (setUserKey db id k) (i + 1) ?_ ?_
      · intro k' hk'
        have hh := hg (k' + 1) (Nat.succ_lt_succ hk')
        rwa [show i + (k' + 1) = i + 1 + k' by omega] at hh
      · intro u hu hnone
        rcases List.mem_map.mp hu with ⟨v, hv, rfl⟩
        by_cases hvid : (v.id == id) = true
        · rw [if_pos hvid] at hnone
          cases hnone
        · rw [if_neg hvid] at hnone ⊢
          have hvmem := hcov v hv hnone
          rcases List.mem_cons.mp hvmem with heq | hmm
          · exact absurd (beq_iff_eq.mpr heq) hvid
          · exact hmm

lemma keyless_covered (db : DB) :
    ∀ u ∈ db.users, u.apiKey = none → u.id ∈ keylessIds db := by
  intro u hu hk
  simp only [keylessIds]
  exact List.mem_map_of_mem _ (List.mem_filter.mpr ⟨hu, by simp [hk]⟩)

/-- C7: when the entropy source and the UPDATEs all succeed, the sweep
assigns a key to every account whose API key was absent (afterwards every
stored account holds a key); if key generation or the UPDATE fails for
the j-th keyless account, the sweep stops at once, its error names that
account's id, and exactly the assignments made before it remain persisted
(no rollback of earlier updates). -/
theorem UpdateExistingUsersWithAPIKey_spec (db : DB) (gens : Nat → Option String)
    (ef : Nat → Bool) :
    ((∀ k, k < (keylessIds db).length → (gens k).isSome = true ∧ ef k = false) →
      UpdateExistingUsersWithAPIKey db gens ef
        = (.ok (), applyUpdates gens db (keylessIds db) 0)
      ∧ (∀ u ∈ (applyUpdates gens db (keylessIds db) 0).users, u.apiKey.isSome = true))
    ∧ (∀ j, j < (keylessIds db).length →
        (∀ k, k < j → (gens k).isSome = true ∧ ef k = false) →
        (gens j = none ∨ ef j = true) →
        ∃ e, UpdateExistingUsersWithAPIKey db gens ef
            = (.error e, applyUpdates gens db ((keylessIds db).take j) 0)
          ∧ (e = .backfillGenError ((keylessIds db).getD j 0)
             ∨ e = .backfillUpdateError ((keylessIds db).getD j 0))) := by
  constructor
  · intro h
    constructor
    · exact backfillLoop_all_ok gens ef (keylessIds db) db 0
        (fun k hk => by rw [Nat.zero_add]; exact h k hk)
    · exact applyUpdates_all_keyed gens (keylessIds db) db 0
        (fun k hk => by rw [Nat.zero_add]; exact (h k hk).1)
        (keyless_covered db)
  · intro j hj hgood hfail
    exact backfillLoop_stops gens ef (keylessIds db) db 0 j hj
      (fun k hk => by rw [Nat.zero_add]; exact hgood k hk)
      (by rwa [Nat.zero_add])

/-- Witness for C7: a fault-free sweep over `backfillDemoDB` succeeds,
and a sweep whose second key generation fails stops with an error naming
account 3, keeping account 1's new key. -/
theorem UpdateExistingUsersWithAPIKey_spec_witness :
    UpdateExistingUsersWithAPIKey backfillDemoDB (fun _ => some "zz") (fun _ => false)
      = (.ok (), applyUpdates (fun _ => some "zz") backfillDemoDB (keylessIds backfillDemoDB) 0)
    ∧ (∃ e, UpdateExistingUsersWithAPIKey backfillDemoDB
          (fun k => if k = 1 then none else some "zz") (fun _ => false)
        = (.error e,
           applyUpdates (fun k => if k = 1 then none else some "zz") backfillDemoDB
             ((keylessIds backfillDemoDB).take 1) 0)
      ∧ (e = .backfillGenError ((keylessIds backfillDemoDB).getD 1 0)
         ∨ e = .backfillUpdateError ((keylessIds backfillDemoDB).getD 1 0))) :=
  ⟨((UpdateExistingUsersWithAPIKey_spec backfillDemoDB (fun _ => some "zz") (fun _ => false)).1
      (fun k _ => ⟨rfl, rfl⟩)).1,
   (UpdateExistingUsersWithAPIKey_spec backfillDemoDB
      (fun k => if k = 1 then none else some "zz") (fun _ => false)).2 1 (by decide)
      (fun k hk => by interval_cases k; exact ⟨rfl, rfl⟩) (Or.inl rfl)⟩

end BookmarkRepo
